import Mathlib

/-! Verification of the `dagger` DMARC-report tool.

The repository has three Rust source files:
  * `src/dmarc.rs` — the typed DMARC aggregate-report model, deserialized with
    serde/quick-xml derive attributes plus a wrapper-based normalization step
    for `PolicyPublished`;
  * `src/main.rs` — an mbox splitter and per-message report loader
    (split on `"From "`, parse mail, extract a ZIP attachment, parse XML);
  * `src/ui.rs` — rendering only.

The shallow embedding below models XML deserialization of a struct as a
function over the list of `(child-element-name, text-content)` pairs of the
corresponding XML element (and, where nested elements matter, over a small
XML tree type).  serde attribute semantics are embedded as they are written
in the source: `rename = "x"` makes the field read the key `"x"`,
`alias = "y"` lets it also match `"y"`, `default` supplies the default value
when the key is absent, an `Option` field is `none` when its key is absent,
and a present key whose text cannot be parsed into the field's type is an
error.  External library calls in `main.rs` (mailparse, the zip crate,
serde_xml_rs) are represented by the outcome values they return; the
control flow of `main` itself (which failures propagate with `?` and which
are merely printed) is embedded faithfully.
-/

namespace Dagger

namespace Dmarc

/-- Alignment mode (`r` = relaxed, `s` = strict), from `dmarc.rs`. -/
inductive Alignment
  | Relaxed
  | Strict
deriving DecidableEq, Repr

/-- The policy actions specified by `p` and `sp`, from `dmarc.rs`
(serde `rename_all = "snake_case"`). -/
inductive Disposition
  | None
  | Quarantine
  | Reject
deriving DecidableEq, Repr

/-- Canonical `PolicyPublished` of `dmarc.rs` (lines 62-77).  `pct : u8` is
modelled as a `Nat` that the deserializer constrains to `< 256`. -/
structure PolicyPublished where
  domain : String
  adkim : Option Alignment
  aspf : Option Alignment
  p : Disposition
  sp : Disposition
  pct : Nat
  fo : String
deriving DecidableEq, Repr

/-- The permissive intermediate shape `PolicyPublishedWrapper` of `dmarc.rs`
(lines 106-118): `sp` and `fo` are optional. -/
structure PolicyPublishedWrapper where
  domain : String
  adkim : Option Alignment
  aspf : Option Alignment
  p : Disposition
  sp : Option Disposition
  pct : Nat
  fo : Option String
deriving DecidableEq, Repr

/-- The `impl From<PolicyPublishedWrapper> for PolicyPublished` (`dmarc.rs`
lines 79-94): `sp` inherits `p` when absent, `fo` defaults to `""`. -/
def PolicyPublished.fromWrapper (value : PolicyPublishedWrapper) : PolicyPublished :=
  { domain := value.domain
    adkim := value.adkim
    aspf := value.aspf
    p := value.p
    sp := value.sp.getD value.p
    pct := value.pct
    fo := value.fo.getD "" }

/-- serde text parser for `Disposition` (`rename_all = "snake_case"`). -/
def parseDisposition : String → Option Disposition
  | "none" => some .None
  | "quarantine" => some .Quarantine
  | "reject" => some .Reject
  | _ => none

/-- serde text parser for `Alignment` (`rename = "r"` / `"s"`). -/
def parseAlignment : String → Option Alignment
  | "r" => some .Relaxed
  | "s" => some .Strict
  | _ => none

/-- Value of a decimal digit character. -/
def digitVal? (c : Char) : Option Nat :=
  if c.isDigit then some (c.toNat - 48) else none

/-- Decimal accumulator over a digit list. -/
def parseDigitsAux : List Char → Nat → Option Nat
  | [], acc => some acc
  | c :: cs, acc =>
    match digitVal? c with
    | some d => parseDigitsAux cs (acc * 10 + d)
    | none => none

/-- Parse a non-empty all-digit decimal string into a natural. -/
def parseNat? (s : String) : Option Nat :=
  match s.data with
  | [] => none
  | cs => parseDigitsAux cs 0

/-- serde text parser for a Rust `u8`: a decimal natural below 256. -/
def parseU8 (s : String) : Option Nat :=
  match parseNat? s with
  | some n => if n < 256 then some n else none
  | none => none

/-- A required string field of an element: its key must be present. -/
def reqField (fs : List (String × String)) (name : String) : Except String String :=
  match fs.lookup name with
  | some v => .ok v
  | none => .error ("missing field " ++ name)

/-- A required typed field: present and parseable, else an error. -/
def reqParsed {α : Type} (fs : List (String × String)) (name : String)
    (parse : String → Option α) : Except String α :=
  match fs.lookup name with
  | some v =>
    match parse v with
    | some a => .ok a
    | none => .error ("invalid value for field " ++ name)
  | none => .error ("missing field " ++ name)

/-- An optional typed field: absent gives `none`, present must parse. -/
def optParsed {α : Type} (fs : List (String × String)) (name : String)
    (parse : String → Option α) : Except String (Option α) :=
  match fs.lookup name with
  | none => .ok none
  | some v =>
    match parse v with
    | some a => .ok (some a)
    | none => .error ("invalid value for field " ++ name)

/-- Deserialization of `PolicyPublishedWrapper` from the children of a
`<policy_published>` element, following the serde derive attributes of
`dmarc.rs` (lines 106-118).  The `sp` field carries
`#[serde(rename = "$text")]`, so it is bound to the quick-xml text-content
key `"$text"`; an ordinary `<sp>` child element never matches it. -/
def PolicyPublishedWrapper.deserialize (fs : List (String × String)) :
    Except String PolicyPublishedWrapper := do
  let domain ← reqField fs "domain"
  let adkim ← optParsed fs "adkim" parseAlignment
  let aspf ← optParsed fs "aspf" parseAlignment
  let p ← reqParsed fs "p" parseDisposition
  let sp ← optParsed fs "$text" parseDisposition
  let pct ← reqParsed fs "pct" parseU8
  let fo := fs.lookup "fo"
  .ok { domain, adkim, aspf, p, sp, pct, fo }

/-- The `PolicyPublished::deserialize_from_wrapper` (`dmarc.rs` lines 96-104):
deserialize the wrapper, then convert it with the `From` impl. -/
def PolicyPublished.deserialize_from_wrapper (fs : List (String × String)) :
    Except String PolicyPublished := do
  let wrapper ← PolicyPublishedWrapper.deserialize fs
  .ok (PolicyPublished.fromWrapper wrapper)

/-- Override reasons, from `dmarc.rs` (lines 129-138). -/
inductive PolicyOverride
  | Forwarded
  | SampledOut
  | TrustedForwarder
  | MailingList
  | LocalPolicy
  | Other
deriving DecidableEq, Repr

/-- The `impl Default for PolicyOverride` (`dmarc.rs` lines 140-144). -/
instance : Inhabited PolicyOverride := ⟨.Other⟩

/-- serde text parser for `PolicyOverride` (`rename_all = "snake_case"`). -/
def parsePolicyOverride : String → Option PolicyOverride
  | "forwarded" => some .Forwarded
  | "sampled_out" => some .SampledOut
  | "trusted_forwarder" => some .TrustedForwarder
  | "mailing_list" => some .MailingList
  | "local_policy" => some .LocalPolicy
  | "other" => some .Other
  | _ => none

/-- The `PolicyOverrideReason`, from `dmarc.rs` (lines 147-152). -/
structure PolicyOverrideReason where
  typ : PolicyOverride
  comment : Option String
deriving DecidableEq, Repr

/-- Deserialization of `PolicyOverrideReason` from the children of a
`<reason>` element, following `dmarc.rs` lines 147-152.  The `typ` field
carries `#[serde(default, rename = "type$text")]`: it only matches a key
literally named `"type$text"`, which a `<type>` child element never
produces, so the serde `default` (`PolicyOverride::Other`) applies whenever
that key is absent — exactly the behavior pinned by the repository's own
unit test `deserialize_policy_override_reason`, which asserts that
`<type>forwarded</type>` yields `Other`. -/
def PolicyOverrideReason.deserialize (fs : List (String × String)) :
    Except String PolicyOverrideReason := do
  let typ ←
    match fs.lookup "type$text" with
    | none => pure PolicyOverride.Other
    | some v =>
      match parsePolicyOverride v with
      | some t => pure t
      | none => Except.error "invalid value for field type"
  let comment := fs.lookup "comment"
  .ok { typ, comment }

/-- A small XML tree, used where nested elements matter
(`report_metadata` holding a `date_range` element). -/
inductive Xml
  | elem (tag : String) (kids : List Xml)
  | text (s : String)

/-- Does this node match an element with the given tag? -/
def Xml.tagIs (t : String) : Xml → Bool
  | .elem tg _ => tg == t
  | .text _ => false

/-- The text content of a node: its own text, or the concatenation of the
text children of an element. -/
def Xml.textOf : Xml → String
  | .text s => s
  | .elem _ kids =>
    String.join (kids.map fun k =>
      match k with
      | .text s => s
      | .elem _ _ => "")

/-- First child element with the given tag. -/
def findElem (t : String) (kids : List Xml) : Option Xml :=
  kids.find? (Xml.tagIs t)

/-- A required leaf field: the text of the child element named `name`. -/
def reqText (kids : List Xml) (name : String) : Except String String :=
  match findElem name kids with
  | some k => .ok k.textOf
  | none => .error ("missing field " ++ name)

/-- Parse a decimal integer with optional leading minus sign (the
`ts_seconds` epoch-second representation of `chrono` timestamps). -/
def parseInt? (s : String) : Option Int :=
  match s.data with
  | [] => none
  | '-' :: [] => none
  | '-' :: c :: cs => (parseDigitsAux (c :: cs) 0).map fun n => -(n : Int)
  | cs => (parseDigitsAux cs 0).map fun n => (n : Int)

/-- The `DateRange` of `dmarc.rs` (lines 20-26): begin/end UTC instants,
serialized as epoch seconds and modelled as integers. -/
structure DateRange where
  begin : Int
  close : Int
deriving DecidableEq, Repr

/-- Deserialization of `DateRange` from its element: required `begin` and
`end` children holding epoch seconds. -/
def DateRange.deserialize (x : Xml) : Except String DateRange :=
  match x with
  | .text _ => .error "expected element for date_range"
  | .elem _ kids =>
    match findElem "begin" kids, findElem "end" kids with
    | some b, some e =>
      match parseInt? b.textOf, parseInt? e.textOf with
      | some bv, some ev => .ok { begin := bv, close := ev }
      | _, _ => .error "invalid timestamp in date_range"
    | _, _ => .error "missing begin or end in date_range"

/-- The `ReportMetadata` of `dmarc.rs` (lines 29-40). -/
structure ReportMetadata where
  org_name : String
  email : String
  extra_contact_info : Option String
  report_id : String
  date_range : DateRange
  errors : List String
deriving DecidableEq, Repr

/-- The `date_range` field carries `#[serde(alias = "data_range")]`
(`dmarc.rs` lines 35-37): it matches a child under either tag. -/
def findDateRange (kids : List Xml) : Option Xml :=
  kids.find? fun k => k.tagIs "date_range" || k.tagIs "data_range"

/-- Deserialization of `ReportMetadata` from the children of a
`<report_metadata>` element, following the serde derive attributes of
`dmarc.rs` lines 29-40: four required leaf fields, an optional
`extra_contact_info`, the aliased `date_range`, and the `error` list
(renamed from `errors`, defaulting to empty). -/
def ReportMetadata.deserialize (kids : List Xml) : Except String ReportMetadata := do
  let org_name ← reqText kids "org_name"
  let email ← reqText kids "email"
  let extra_contact_info := (findElem "extra_contact_info" kids).map Xml.textOf
  let report_id ← reqText kids "report_id"
  let date_range ←
    match findDateRange kids with
    | some k => DateRange.deserialize k
    | none => Except.error "missing field date_range"
  let errors := (kids.filter (Xml.tagIs "error")).map Xml.textOf
  .ok { org_name, email, extra_contact_info, report_id, date_range, errors }

/-- The DMARC-aligned authentication verdict, from `dmarc.rs`. -/
inductive DmarcResult
  | Pass
  | Fail
deriving DecidableEq, Repr

/-- The `PolicyEvaluated`, from `dmarc.rs` (lines 155-162). -/
structure PolicyEvaluated where
  disposition : Disposition
  dkim : DmarcResult
  spf : DmarcResult
  reasons : List PolicyOverrideReason
deriving DecidableEq, Repr

/-- The `Row`, from `dmarc.rs` (lines 164-172).  `source_ip : IpAddr` is
modelled by its textual form; no claim interprets it. -/
structure Row where
  source_ip : String
  count : Nat
  policy_evaluated : PolicyEvaluated
deriving DecidableEq, Repr

/-- The `Identifier`, from `dmarc.rs` (lines 174-184). -/
structure Identifier where
  envelope_to : Option String
  envelope_from : Option String
  header_from : String
deriving DecidableEq, Repr

/-- DKIM verification verdicts, from `dmarc.rs`. -/
inductive DkimResult
  | None
  | Pass
  | Fail
  | Policy
  | Neutral
  | TempError
  | PermError
deriving DecidableEq, Repr

/-- The `DkimAuthResult`, from `dmarc.rs` (lines 199-209). -/
structure DkimAuthResult where
  domain : String
  selector : Option String
  result : DkimResult
  human_result : Option String
deriving DecidableEq, Repr

/-- SPF scope, from `dmarc.rs`. -/
inductive SpfDomainScope
  | Helo
  | MFrom
deriving DecidableEq, Repr

/-- SPF verification verdicts, from `dmarc.rs`. -/
inductive SpfResult
  | None
  | Neutral
  | Pass
  | Fail
  | Softfail
  | TempError
  | PermError
deriving DecidableEq, Repr

/-- The `SpfAuthResult`, from `dmarc.rs` (lines 233-243). -/
structure SpfAuthResult where
  domain : String
  scope : Option SpfDomainScope
  result : SpfResult
deriving DecidableEq, Repr

/-- The `AuthResult`, from `dmarc.rs` (lines 246-253). -/
structure AuthResult where
  dkim : List DkimAuthResult
  spf : List SpfAuthResult
deriving DecidableEq, Repr

/-- The `Record`, from `dmarc.rs` (lines 256-261). -/
structure Record where
  row : Row
  identifiers : Identifier
  auth_results : AuthResult
deriving DecidableEq, Repr

/-- The `Feedback`, from `dmarc.rs` (lines 7-17): optional schema version
(an `f32` in the source), metadata, published policy, record list. -/
structure Feedback where
  version : Option Float
  report_metadata : ReportMetadata
  policy_published : PolicyPublished
  records : List Record

/-- Correct the misspelled alias in a child list: retag every direct
`data_range` child as `date_range`, leaving everything else unchanged. -/
def renameDataRange1 : Xml → Xml
  | .elem "data_range" kk => .elem "date_range" kk
  | other => other

/-- Apply `renameDataRange1` to every child. -/
def renameDataRange (kids : List Xml) : List Xml :=
  kids.map renameDataRange1

end Dmarc

namespace Mbox

/-- The `content.split("From ")` of `main.rs` line 256, embedded over the
character list: Rust's `str::split` with a literal pattern cuts at every
non-overlapping occurrence of the pattern, scanning left to right —
anywhere in the text, not only at line starts. -/
def splitFrom : List Char → List Char → List (List Char)
  | 'F' :: 'r' :: 'o' :: 'm' :: ' ' :: rest, acc => acc :: splitFrom rest []
  | c :: cs, acc => splitFrom cs (acc ++ [c])
  | [], acc => [acc]

/-- Number of (non-overlapping, leftmost-first) `"From "` occurrences. -/
def countFrom : List Char → Nat
  | 'F' :: 'r' :: 'o' :: 'm' :: ' ' :: rest => countFrom rest + 1
  | _ :: cs => countFrom cs
  | [] => 0

/-- The message list the loader iterates over:
`content.split("From ").skip(1)` (`main.rs` lines 256-257). -/
def mboxMessages (content : String) : List String :=
  ((splitFrom content.data []).drop 1).map fun l => String.mk l

/-- Follows the spec's words (for comparison with `splitFrom`): split only
at occurrences of `"From "` that begin a line, i.e. at the start of the
file or right after a newline. -/
def splitFromLineStart : Bool → List Char → List Char → List (List Char)
  | true, 'F' :: 'r' :: 'o' :: 'm' :: ' ' :: rest, acc => acc :: splitFromLineStart false rest []
  | _, '\n' :: cs, acc => splitFromLineStart true cs (acc ++ ['\n'])
  | _, c :: cs, acc => splitFromLineStart false cs (acc ++ [c])
  | _, [], acc => [acc]

/-- Follows the spec's words: messages delimited by line-initial markers
only, preamble discarded. -/
def mboxMessagesLineStart (content : String) : List String :=
  ((splitFromLineStart true content.data []).drop 1).map fun l => String.mk l

end Mbox

namespace Loader

/-- One MIME part as `main.rs` sees it: the declared content type, plus the
outcomes of the two external operations applied to its bytes —
`extract_xml_from_zip` (zip crate + UTF-8 decode, `main.rs` lines 228-237)
and `parse_report` (serde_xml_rs parse of the extracted text, lines
239-243).  The libraries themselves are outside the embedding; their
results are carried as data. -/
structure MailPart where
  mimetype : String
  extractXml : Except String String
  parseReport : Except String Unit

/-- A parsed message: decoded `Subject` header (if any) and its parts, in
the order `mailparse`'s part iterator yields them. -/
structure Mail where
  subject : Option String
  parts : List MailPart

/-- The error channels that escape `main` via `?`. -/
inductive LoaderError
  | mailParse (e : String)
  | missingSubject
  | zipError (e : String)
deriving DecidableEq, Repr

/-- Console output of the loop, in order: the subject line, the extracted
XML dump, and the `Debug`-printed result of `parse_report` (which is
printed whether it succeeded or failed — the only per-message diagnostic). -/
inductive Event
  | processing (subject : String)
  | xmlPrinted (xml : String)
  | reportPrinted (result : Except String Unit)

/-- The per-part body of the loop in `main.rs` lines 265-271: only
`application/zip` parts are handled; a ZIP extraction failure propagates
with `?` (fatal), while the `parse_report` outcome is only printed. -/
def processPart (p : MailPart) : Except LoaderError (List Event) :=
  if p.mimetype = "application/zip" then
    match p.extractXml with
    | .error e => .error (.zipError e)
    | .ok xml => .ok [.xmlPrinted xml, .reportPrinted p.parseReport]
  else .ok []

/-- Process the parts of one message in order, stopping at the first fatal
error, as the `for` loop with `?` does. -/
def processParts : List MailPart → Except LoaderError (List Event)
  | [] => .ok []
  | p :: ps => do
    let evs ← processPart p
    let rest ← processParts ps
    .ok (evs ++ rest)

/-- Process one message (`main.rs` lines 258-271): `parse_mail` failure and
a missing `Subject` both propagate with `?`. -/
def processMail (raw : Except String Mail) : Except LoaderError (List Event) := do
  let pm ←
    match raw with
    | .ok m => Except.ok m
    | .error e => Except.error (LoaderError.mailParse e)
  match pm.subject with
  | none => Except.error LoaderError.missingSubject
  | some subject => do
    let evs ← processParts pm.parts
    .ok (Event.processing subject :: evs)

/-- The whole message loop of `main` (lines 257-272): any per-message
`LoaderError` aborts the remaining messages. -/
def processMessages : List (Except String Mail) → Except LoaderError (List Event)
  | [] => .ok []
  | m :: ms => do
    let evs ← processMail m
    let rest ← processMessages ms
    .ok (evs ++ rest)

/-- A part that cannot make the loop abort: either it is not a ZIP part
(then it is skipped) or its extraction succeeds. -/
def partSafe (p : MailPart) : Bool :=
  !(p.mimetype == "application/zip") || p.extractXml.isOk

/-- A message that cannot make the loop abort: it parses, has a subject,
and all its ZIP parts extract.  `parse_report` outcomes are unconstrained. -/
def mailSafe : Except String Mail → Bool
  | .error _ => false
  | .ok m => m.subject.isSome && m.parts.all partSafe

end Loader

namespace Aggregate

/-- Modelled from the spec: no aggregator exists under `src/` (`main.rs`
only prints per-message results), but spec §4.5 specifies one.  Sort key:
ascending `report_metadata.date_range.begin`. -/
def beginLE (a b : Dmarc.Feedback) : Bool :=
  decide (a.report_metadata.date_range.begin ≤ b.report_metadata.date_range.begin)

/-- Modelled from the spec: step (a) of §4.5, a stable ascending sort by
the begin timestamp. -/
def sortFeedbacks (fbs : List Dmarc.Feedback) : List Dmarc.Feedback :=
  fbs.mergeSort beginLE

/-- Modelled from the spec: step (b) of §4.5, adjacency-based dedup by
`report_metadata.report_id`, keeping the first element of each run of
adjacent duplicates (Rust `Vec::dedup_by_key` semantics). -/
def dedupByReportId : List Dmarc.Feedback → List Dmarc.Feedback
  | [] => []
  | [a] => [a]
  | a :: b :: t =>
    if a.report_metadata.report_id = b.report_metadata.report_id then
      dedupByReportId (a :: t)
    else
      a :: dedupByReportId (b :: t)

/-- Modelled from the spec: §4.5 steps (a), (b) and (d) — sort, dedup
adjacent duplicates, then flatten the retained feedbacks' record lists in
order. -/
def aggregate (fbs : List Dmarc.Feedback) : List Dmarc.Record :=
  ((dedupByReportId (sortFeedbacks fbs)).map Dmarc.Feedback.records).flatten

end Aggregate

/-- Inverting a successful `Except` bind: shared helper for reasoning about
the deserializer chains. -/
theorem except_bind_ok {ε α β : Type} (x : Except ε α) (f : α → Except ε β) (b : β)
    (h : (x >>= f) = .ok b) : ∃ a, x = .ok a ∧ f a = .ok b := by
  cases x with
  | error e => exact Except.noConfusion h
  | ok a => exact ⟨a, rfl, h⟩

namespace Dmarc

/-- A successfully deserialized wrapper whose element had no text content
(`"$text"` key absent) has `sp = none`. -/
theorem wrapper_sp_of_no_text (fs : List (String × String)) (w : PolicyPublishedWrapper)
    (h : PolicyPublishedWrapper.deserialize fs = .ok w)
    (hsp : fs.lookup "$text" = none) : w.sp = none := by
  unfold PolicyPublishedWrapper.deserialize at h
  obtain ⟨domain, h1, h⟩ := except_bind_ok _ _ _ h
  obtain ⟨adkim, h2, h⟩ := except_bind_ok _ _ _ h
  obtain ⟨aspf, h3, h⟩ := except_bind_ok _ _ _ h
  obtain ⟨p, h4, h⟩ := except_bind_ok _ _ _ h
  obtain ⟨sp, h5, h⟩ := except_bind_ok _ _ _ h
  obtain ⟨pct, h6, h⟩ := except_bind_ok _ _ _ h
  have hsp' : sp = none := by
    simpa only [optParsed, hsp, Except.ok.injEq] using h5.symm
  injection h with h
  subst h
  exact hsp'

/-- A successfully deserialized wrapper whose element had no `fo` child has
`fo = none`. -/
theorem wrapper_fo_of_missing (fs : List (String × String)) (w : PolicyPublishedWrapper)
    (h : PolicyPublishedWrapper.deserialize fs = .ok w)
    (hfo : fs.lookup "fo" = none) : w.fo = none := by
  unfold PolicyPublishedWrapper.deserialize at h
  obtain ⟨domain, h1, h⟩ := except_bind_ok _ _ _ h
  obtain ⟨adkim, h2, h⟩ := except_bind_ok _ _ _ h
  obtain ⟨aspf, h3, h⟩ := except_bind_ok _ _ _ h
  obtain ⟨p, h4, h⟩ := except_bind_ok _ _ _ h
  obtain ⟨sp, h5, h⟩ := except_bind_ok _ _ _ h
  obtain ⟨pct, h6, h⟩ := except_bind_ok _ _ _ h
  injection h with h
  subst h
  exact hfo

/-- Inversion for a successful required typed field. -/
theorem reqParsed_ok_inv {α : Type} (fs : List (String × String)) (name : String)
    (parse : String → Option α) (a : α) (h : reqParsed fs name parse = .ok a) :
    ∃ v, fs.lookup name = some v ∧ parse v = some a := by
  unfold reqParsed at h
  cases hl : fs.lookup name with
  | none =>
    simp only [hl] at h
    exact Except.noConfusion h
  | some v =>
    simp only [hl] at h
    cases hp : parse v with
    | none =>
      simp only [hp] at h
      exact Except.noConfusion h
    | some b =>
      simp only [hp, Except.ok.injEq] at h
      exact ⟨v, rfl, by rw [hp, h]⟩

/-- Retagging `data_range` children does not change whether a node matches
any other tag. -/
theorem renameDataRange1_tagIs (t : String) (k : Xml)
    (h1 : ("date_range" == t) = false) (h2 : ("data_range" == t) = false) :
    (renameDataRange1 k).tagIs t = k.tagIs t := by
  unfold renameDataRange1
  split
  · simp [Xml.tagIs, h1, h2]
  · rfl

/-- Retagging does not change text content. -/
theorem renameDataRange1_textOf (k : Xml) :
    (renameDataRange1 k).textOf = k.textOf := by
  unfold renameDataRange1
  split
  · rfl
  · rfl

/-- Retagging preserves the date-range match predicate. -/
theorem renameDataRange1_isDateRange (k : Xml) :
    ((renameDataRange1 k).tagIs "date_range" || (renameDataRange1 k).tagIs "data_range") =
      (k.tagIs "date_range" || k.tagIs "data_range") := by
  unfold renameDataRange1
  split
  · rfl
  · rfl

/-- Retagging does not change `DateRange` deserialization (the outer tag is
never inspected). -/
theorem DateRange.deserialize_renameDataRange1 (k : Xml) :
    DateRange.deserialize (renameDataRange1 k) = DateRange.deserialize k := by
  unfold renameDataRange1
  split
  · rfl
  · rfl

/-- A node matching a tag other than `data_range` is unchanged by the
retagging. -/
theorem renameDataRange1_eq_self (t : String) (k : Xml)
    (hk : k.tagIs t = true) (h2 : ("data_range" == t) = false) :
    renameDataRange1 k = k := by
  cases k with
  | text s => rfl
  | elem tg kk =>
    have htg : tg = t := by
      simpa [Xml.tagIs] using hk
    subst htg
    have hne : ¬ (tg = "data_range") := by
      intro he
      subst he
      simp at h2
    unfold renameDataRange1
    split
    · rename_i kk' heq
      simp_all
    · rfl

/-- Looking up any tag other than the two date-range spellings is invariant
under the retagging. -/
theorem findElem_renameDataRange (t : String) (kids : List Xml)
    (h1 : ("date_range" == t) = false) (h2 : ("data_range" == t) = false) :
    findElem t (renameDataRange kids) = findElem t kids := by
  induction kids with
  | nil => rfl
  | cons k ks ih =>
    show findElem t (renameDataRange1 k :: renameDataRange ks) = findElem t (k :: ks)
    unfold findElem at ih ⊢
    cases hk : k.tagIs t with
    | false =>
      rw [List.find?_cons_of_neg _ (by rw [renameDataRange1_tagIs t k h1 h2, hk]; simp),
          List.find?_cons_of_neg _ (by rw [hk]; simp)]
      exact ih
    | true =>
      rw [List.find?_cons_of_pos _ (by rw [renameDataRange1_tagIs t k h1 h2, hk]),
          List.find?_cons_of_pos _ (by rw [hk]),
          renameDataRange1_eq_self t k hk h2]

/-- The aliased date-range lookup finds the same child (up to retagging). -/
theorem findDateRange_renameDataRange (kids : List Xml) :
    findDateRange (renameDataRange kids) =
      Option.map renameDataRange1 (findDateRange kids) := by
  induction kids with
  | nil => rfl
  | cons k ks ih =>
    show findDateRange (renameDataRange1 k :: renameDataRange ks) =
      Option.map renameDataRange1 (findDateRange (k :: ks))
    unfold findDateRange at ih ⊢
    cases hk : (k.tagIs "date_range" || k.tagIs "data_range") with
    | false =>
      rw [List.find?_cons_of_neg _ (by rw [renameDataRange1_isDateRange k, hk]; simp),
          List.find?_cons_of_neg _ (by rw [hk]; simp)]
      exact ih
    | true =>
      rw [List.find?_cons_of_pos _ (by rw [renameDataRange1_isDateRange k, hk]),
          List.find?_cons_of_pos _ (by rw [hk])]
      rfl

/-- The `error` list is invariant under the retagging. -/
theorem errors_renameDataRange (kids : List Xml) :
    ((renameDataRange kids).filter (Xml.tagIs "error")).map Xml.textOf =
      (kids.filter (Xml.tagIs "error")).map Xml.textOf := by
  induction kids with
  | nil => rfl
  | cons k ks ih =>
    show ((renameDataRange1 k :: renameDataRange ks).filter (Xml.tagIs "error")).map Xml.textOf =
      ((k :: ks).filter (Xml.tagIs "error")).map Xml.textOf
    rw [List.filter_cons, List.filter_cons,
        renameDataRange1_tagIs "error" k (by decide) (by decide)]
    cases hk : k.tagIs "error" with
    | false =>
      simp only [Bool.false_eq_true, if_neg, ite_false]
      exact ih
    | true =>
      simp only [if_pos, ite_true, List.map_cons]
      rw [renameDataRange1_textOf k, ih]

/-- The `parseU8` only produces naturals below 256. -/
theorem parseU8_lt (s : String) (n : Nat) (h : parseU8 s = some n) : n < 256 := by
  unfold parseU8 at h
  cases hs : parseNat? s with
  | none => rw [hs] at h; exact absurd h (by simp)
  | some m =>
    rw [hs] at h
    by_cases hm : m < 256
    · simp only [hm, if_pos] at h
      injection h with h
      omega
    · simp [hm] at h

end Dmarc

/-- A successful `Except` is an `ok`. -/
theorem except_isOk_exists {ε α : Type} (x : Except ε α) (h : x.isOk = true) :
    ∃ a, x = .ok a := by
  cases x with
  | ok a => exact ⟨a, rfl⟩
  | error e => simp [Except.isOk, Except.toBool] at h

namespace Mbox

/-- The split always yields one segment more than there are marker
occurrences, whatever has accumulated so far. -/
theorem splitFrom_length (cs acc : List Char) :
    (splitFrom cs acc).length = countFrom cs + 1 := by
  induction cs, acc using splitFrom.induct <;>
    simp_all [splitFrom, countFrom]

end Mbox

namespace Loader

/-- A safe part can not abort the loop. -/
theorem processPart_isOk (p : MailPart) (h : partSafe p = true) :
    (processPart p).isOk = true := by
  unfold partSafe at h
  unfold processPart
  cases hm : (p.mimetype == "application/zip") with
  | false =>
    rw [if_neg (by simpa using (bne_iff_ne (a := p.mimetype)).mp (by simp [bne, hm]))]
    rfl
  | true =>
    rw [if_pos (by simpa using hm)]
    rw [hm] at h
    simp only [Bool.not_true, Bool.false_or] at h
    obtain ⟨xml, hx⟩ := except_isOk_exists _ h
    rw [hx]
    rfl

/-- A list of safe parts can not abort the loop. -/
theorem processParts_isOk (ps : List MailPart) (h : ps.all partSafe = true) :
    (processParts ps).isOk = true := by
  induction ps with
  | nil => rfl
  | cons p ps ih =>
    simp only [List.all_cons, Bool.and_eq_true] at h
    obtain ⟨evs, hp⟩ := except_isOk_exists _ (processPart_isOk p h.1)
    obtain ⟨rest, hr⟩ := except_isOk_exists _ (ih h.2)
    show (processParts (p :: ps)).isOk = true
    unfold processParts
    rw [hp, hr]
    rfl

/-- A safe message can not abort the loop. -/
theorem processMail_isOk (m : Except String Mail) (h : mailSafe m = true) :
    (processMail m).isOk = true := by
  cases m with
  | error e => simp [mailSafe] at h
  | ok pm =>
    unfold mailSafe at h
    simp only [Bool.and_eq_true] at h
    cases hs : pm.subject with
    | none => rw [hs] at h; simp [Option.isSome] at h
    | some subject =>
      obtain ⟨evs, hp⟩ := except_isOk_exists _ (processParts_isOk pm.parts h.2)
      show (match pm.subject with
        | none => (Except.error LoaderError.missingSubject : Except LoaderError (List Event))
        | some subject => do
          let evs ← processParts pm.parts
          Except.ok (Event.processing subject :: evs)).isOk = true
      rw [hs, hp]
      rfl

end Loader

namespace Aggregate

/-- The dedup output is a sublist of its input. -/
theorem dedupByReportId_sublist (l : List Dmarc.Feedback) :
    (dedupByReportId l).Sublist l := by
  induction l using dedupByReportId.induct with
  | case1 => simp [dedupByReportId]
  | case2 a => simp [dedupByReportId]
  | case3 a b t heq ih =>
    rw [dedupByReportId, if_pos heq]
    exact ih.trans ((List.sublist_cons_self b t).cons₂ a)
  | case4 a b t hne ih =>
    rw [dedupByReportId, if_neg hne]
    exact ih.cons₂ a

/-- The dedup keeps the first element: the head is unchanged. -/
theorem dedupByReportId_head? (l : List Dmarc.Feedback) :
    (dedupByReportId l).head? = l.head? := by
  induction l using dedupByReportId.induct with
  | case1 => simp [dedupByReportId]
  | case2 a => simp [dedupByReportId]
  | case3 a b t heq ih =>
    rw [dedupByReportId, if_pos heq, ih]
    rfl
  | case4 a b t hne ih =>
    rw [dedupByReportId, if_neg hne]
    rfl

/-- After the dedup, no two adjacent feedbacks share a `report_id`. -/
theorem dedupByReportId_chain (l : List Dmarc.Feedback) :
    List.Chain'
      (fun a b => a.report_metadata.report_id ≠ b.report_metadata.report_id)
      (dedupByReportId l) := by
  induction l using dedupByReportId.induct with
  | case1 => simp [dedupByReportId]
  | case2 a => simp [dedupByReportId]
  | case3 a b t heq ih =>
    rw [dedupByReportId, if_pos heq]
    exact ih
  | case4 a b t hne ih =>
    rw [dedupByReportId, if_neg hne]
    refine List.chain'_cons'.mpr ⟨?_, ih⟩
    intro y hy
    rw [dedupByReportId_head? (b :: t)] at hy
    injection hy with hy
    rw [hy] at hne
    exact hne

/-- The `beginLE` is transitive. -/
theorem beginLE_trans (a b c : Dmarc.Feedback)
    (h1 : beginLE a b = true) (h2 : beginLE b c = true) : beginLE a c = true := by
  simp only [beginLE, decide_eq_true_eq] at *
  omega

/-- The `beginLE` is total. -/
theorem beginLE_total (a b : Dmarc.Feedback) :
    (beginLE a b || beginLE b a) = true := by
  simp only [beginLE, Bool.or_eq_true, decide_eq_true_eq]
  omega

end Aggregate

open Dmarc

/-- C2 counterexample: the claim says a recognized `type` value such as
`forwarded` normalizes to the corresponding variant, but deserializing
`<reason><type>forwarded</type></reason>` yields kind `Other` (the `typ`
field is bound to the name `"type$text"`, which the `type` element never
matches, so the default applies) — exactly what the repository's own unit
test asserts.  `Other` is not `Forwarded`, so the claim fails. -/
theorem c2_recognized_type_counterexample :
    PolicyOverrideReason.deserialize [("type", "forwarded")] =
      Except.ok { typ := PolicyOverride.Other, comment := none } ∧
    PolicyOverride.Other ≠ PolicyOverride.Forwarded :=
  ⟨rfl, by decide⟩

/-- C2 (amended): for every `reason` element carrying no `"type$text"` key —
in particular for every document whose `type` child holds any value,
recognized or not, and for documents with no `type` at all — the normalized
kind is `Other`, and the comment is passed through unchanged. -/
theorem c2_kind_always_other (fs : List (String × String))
    (h : fs.lookup "type$text" = none) :
    PolicyOverrideReason.deserialize fs =
      Except.ok { typ := PolicyOverride.Other, comment := fs.lookup "comment" } := by
  unfold PolicyOverrideReason.deserialize
  rw [h]
  rfl

/-- Witness for `c2_kind_always_other` at a concrete reason element. -/
theorem c2_kind_always_other_witness :
    PolicyOverrideReason.deserialize [("type", "sampled_out"), ("comment", "fwd")] =
      Except.ok { typ := PolicyOverride.Other, comment := some "fwd" } := by
  have := c2_kind_always_other [("type", "sampled_out"), ("comment", "fwd")] (by rfl)
  simpa using this

/-- C3: for every `policy_published` element that deserializes successfully
and carries no `"$text"` key (the serde binding of the wrapper's `sp`
field — a document that simply omits `sp` has no such key), the normalized
`sp` equals `p`: the inheritance is applied by the wrapper-to-canonical
conversion, not left missing. -/
theorem c3_sp_inherits_p (fs : List (String × String)) (pp : PolicyPublished)
    (h : PolicyPublished.deserialize_from_wrapper fs = .ok pp)
    (hsp : fs.lookup "$text" = none) : pp.sp = pp.p := by
  unfold PolicyPublished.deserialize_from_wrapper at h
  obtain ⟨w, hw, h⟩ := except_bind_ok _ _ _ h
  injection h with h
  subst h
  have hn := wrapper_sp_of_no_text fs w hw hsp
  simp [PolicyPublished.fromWrapper, hn]

/-- Witness for `c3_sp_inherits_p`: a minimal document omitting `sp`
deserializes successfully and inherits `p = reject`. -/
theorem c3_sp_inherits_p_witness :
    PolicyPublished.deserialize_from_wrapper
        [("domain", "example.com"), ("p", "reject"), ("pct", "100")] =
      .ok { domain := "example.com", adkim := none, aspf := none,
            p := .Reject, sp := .Reject, pct := 100, fo := "" } ∧
    (PolicyPublished.mk "example.com" none none .Reject .Reject 100 "").sp =
      (PolicyPublished.mk "example.com" none none .Reject .Reject 100 "").p :=
  ⟨by rfl, c3_sp_inherits_p [("domain", "example.com"), ("p", "reject"), ("pct", "100")]
    (PolicyPublished.mk "example.com" none none .Reject .Reject 100 "") (by rfl) (by rfl)⟩

/-- C8: for every `policy_published` element that deserializes successfully
and has no `fo` child, the normalized `fo` is the empty string. -/
theorem c8_fo_defaults_empty (fs : List (String × String)) (pp : PolicyPublished)
    (h : PolicyPublished.deserialize_from_wrapper fs = .ok pp)
    (hfo : fs.lookup "fo" = none) : pp.fo = "" := by
  unfold PolicyPublished.deserialize_from_wrapper at h
  obtain ⟨w, hw, h⟩ := except_bind_ok _ _ _ h
  injection h with h
  subst h
  have hn := wrapper_fo_of_missing fs w hw hfo
  simp [PolicyPublished.fromWrapper, hn]

/-- Witness for `c8_fo_defaults_empty` at a document without `fo`. -/
theorem c8_fo_defaults_empty_witness :
    PolicyPublished.deserialize_from_wrapper
        [("domain", "example.com"), ("p", "none"), ("pct", "50")] =
      .ok { domain := "example.com", adkim := none, aspf := none,
            p := .None, sp := .None, pct := 50, fo := "" } ∧
    (PolicyPublished.mk "example.com" none none .None .None 50 "").fo = "" :=
  ⟨by rfl, c8_fo_defaults_empty [("domain", "example.com"), ("p", "none"), ("pct", "50")]
    (PolicyPublished.mk "example.com" none none .None .None 50 "") (by rfl) (by rfl)⟩

/-- C9 counterexample: a document with `pct = 200` deserializes successfully
(`pct` is only a `u8`) and produces a `PolicyPublished` whose `pct` is
outside 0–100, contrary to the claim. -/
theorem c9_pct_range_counterexample :
    PolicyPublished.deserialize_from_wrapper
        [("domain", "example.com"), ("p", "none"), ("pct", "200")] =
      .ok { domain := "example.com", adkim := none, aspf := none,
            p := .None, sp := .None, pct := 200, fo := "" } ∧
    ¬((200 : Nat) ≤ 100) :=
  ⟨by rfl, by decide⟩

/-- C9 (amended): the only range constraint the code imposes on `pct` is
the `u8` type itself: every successfully deserialized `PolicyPublished` has
`pct < 256`, and no 0–100 validation is performed. -/
theorem c9_pct_only_u8_bounded (fs : List (String × String)) (pp : PolicyPublished)
    (h : PolicyPublished.deserialize_from_wrapper fs = .ok pp) : pp.pct < 256 := by
  unfold PolicyPublished.deserialize_from_wrapper at h
  obtain ⟨w, hw, h⟩ := except_bind_ok _ _ _ h
  injection h with h
  subst h
  unfold PolicyPublishedWrapper.deserialize at hw
  obtain ⟨domain, h1, hw⟩ := except_bind_ok _ _ _ hw
  obtain ⟨adkim, h2, hw⟩ := except_bind_ok _ _ _ hw
  obtain ⟨aspf, h3, hw⟩ := except_bind_ok _ _ _ hw
  obtain ⟨p, h4, hw⟩ := except_bind_ok _ _ _ hw
  obtain ⟨sp, h5, hw⟩ := except_bind_ok _ _ _ hw
  obtain ⟨pct, h6, hw⟩ := except_bind_ok _ _ _ hw
  obtain ⟨v, hv, hp⟩ := reqParsed_ok_inv fs "pct" parseU8 pct h6
  have hlt : pct < 256 := parseU8_lt v pct hp
  injection hw with hw
  subst hw
  exact hlt

/-- Witness for `c9_pct_only_u8_bounded` at the `pct = 200` document. -/
theorem c9_pct_only_u8_bounded_witness :
    (PolicyPublished.mk "example.com" none none .None .None 200 "").pct < 256 :=
  c9_pct_only_u8_bounded [("domain", "example.com"), ("p", "none"), ("pct", "200")]
    (PolicyPublished.mk "example.com" none none .None .None 200 "") (by rfl)

/-- C10: the wrapper-to-canonical conversion changes at most `sp` and `fo`:
`domain`, `adkim`, `aspf`, `p` and `pct` are copied unchanged, and a
present `sp` (resp. `fo`) is kept as-is. -/
theorem c10_fromWrapper_frame (w : PolicyPublishedWrapper) :
    (PolicyPublished.fromWrapper w).domain = w.domain ∧
    (PolicyPublished.fromWrapper w).adkim = w.adkim ∧
    (PolicyPublished.fromWrapper w).aspf = w.aspf ∧
    (PolicyPublished.fromWrapper w).p = w.p ∧
    (PolicyPublished.fromWrapper w).pct = w.pct ∧
    (∀ d, w.sp = some d → (PolicyPublished.fromWrapper w).sp = d) ∧
    (∀ s, w.fo = some s → (PolicyPublished.fromWrapper w).fo = s) := by
  refine ⟨rfl, rfl, rfl, rfl, rfl, ?_, ?_⟩ <;>
    intro x hx <;> simp [PolicyPublished.fromWrapper, hx]

/-- Witness for `c10_fromWrapper_frame` at a wrapper with both optionals
present. -/
theorem c10_fromWrapper_frame_witness :
    (PolicyPublished.fromWrapper
      (PolicyPublishedWrapper.mk "a" none none .None (some .Quarantine) 100 (some "1"))).sp =
        .Quarantine ∧
    (PolicyPublished.fromWrapper
      (PolicyPublishedWrapper.mk "a" none none .None (some .Quarantine) 100 (some "1"))).fo =
        "1" :=
  ⟨(c10_fromWrapper_frame
      (PolicyPublishedWrapper.mk "a" none none .None (some .Quarantine) 100 (some "1"))).2.2.2.2.2.1
      .Quarantine rfl,
   (c10_fromWrapper_frame
      (PolicyPublishedWrapper.mk "a" none none .None (some .Quarantine) 100 (some "1"))).2.2.2.2.2.2
      "1" rfl⟩

/-- C7: a document using the misspelled `data_range` tag deserializes
exactly like the correctly-spelled form: correcting the tag in any
`report_metadata` child list leaves the deserialization result unchanged,
and a concrete misspelled document deserializes successfully with the
expected `date_range`. -/
theorem c7_date_range_alias :
    (∀ kids : List Xml,
        ReportMetadata.deserialize (renameDataRange kids) =
          ReportMetadata.deserialize kids) ∧
    ReportMetadata.deserialize
        [ .elem "org_name" [.text "google.com"],
          .elem "email" [.text "noreply@google.com"],
          .elem "report_id" [.text "123"],
          .elem "data_range" [.elem "begin" [.text "100"], .elem "end" [.text "200"]] ] =
      .ok { org_name := "google.com", email := "noreply@google.com",
            extra_contact_info := none, report_id := "123",
            date_range := { begin := 100, close := 200 }, errors := [] } := by
  constructor
  · intro kids
    unfold ReportMetadata.deserialize reqText
    rw [findElem_renameDataRange "org_name" kids (by decide) (by decide),
        findElem_renameDataRange "email" kids (by decide) (by decide),
        findElem_renameDataRange "extra_contact_info" kids (by decide) (by decide),
        findElem_renameDataRange "report_id" kids (by decide) (by decide),
        findDateRange_renameDataRange kids,
        errors_renameDataRange kids]
    cases hdr : findDateRange kids with
    | none => rfl
    | some k =>
      simp only [Option.map_some']
      rw [DateRange.deserialize_renameDataRange1 k]
  · rfl

/-- C1 counterexample: the claim says a per-message failure such as a
missing subject only skips that message, but with a first message lacking a
subject and a perfectly good second message the loop returns
`MissingSubject` for the whole batch — the second message (shown to process
fine on its own) is never reached. -/
theorem c1_missing_subject_aborts_batch :
    Loader.processMessages
        [Except.ok { subject := none, parts := [] },
         Except.ok { subject := some "Report domain: example.com",
                     parts := [{ mimetype := "application/zip",
                                 extractXml := .ok "<feedback/>",
                                 parseReport := .ok () }] }] =
      Except.error Loader.LoaderError.missingSubject ∧
    (Loader.processMessages
        [Except.ok { subject := some "Report domain: example.com",
                     parts := [{ mimetype := "application/zip",
                                 extractXml := .ok "<feedback/>",
                                 parseReport := .ok () }] }]).isOk = true :=
  ⟨by rfl, by rfl⟩

/-- C1 (amended): only the XML schema/deserialization outcome of
`parse_report` is non-fatal — its result is printed (the one per-message
diagnostic) and the loop continues; a mail-parse failure, a missing
subject, or a ZIP extraction failure aborts the whole run via `?`, and a
message without an `application/zip` part is skipped silently.  First
conjunct: a batch of messages that parse, have subjects, and whose ZIP
parts extract always completes, whatever `parse_report` returns.  Second
conjunct: a schema failure is reported as a printed diagnostic and the
message's processing still ends normally. -/
theorem c1_only_schema_failures_skipped :
    (∀ msgs : List (Except String Loader.Mail),
        msgs.all Loader.mailSafe = true →
        (Loader.processMessages msgs).isOk = true) ∧
    (∀ s xml err : String,
        Loader.processMail
            (Except.ok { subject := some s,
                         parts := [{ mimetype := "application/zip",
                                     extractXml := .ok xml,
                                     parseReport := .error err }] }) =
          Except.ok [Loader.Event.processing s, Loader.Event.xmlPrinted xml,
                     Loader.Event.reportPrinted (Except.error err)]) := by
  constructor
  · intro msgs h
    induction msgs with
    | nil => rfl
    | cons m ms ih =>
      simp only [List.all_cons, Bool.and_eq_true] at h
      obtain ⟨evs, hm⟩ := except_isOk_exists _ (Loader.processMail_isOk m h.1)
      obtain ⟨rest, hr⟩ := except_isOk_exists _ (ih h.2)
      show (Loader.processMessages (m :: ms)).isOk = true
      unfold Loader.processMessages
      rw [hm, hr]
      rfl
  · intro s xml err
    rfl

/-- Witness for `c1_only_schema_failures_skipped`: a concrete two-message
batch whose first message has a failing `parse_report` completes, and the
schema failure is reported. -/
theorem c1_only_schema_failures_skipped_witness :
    (Loader.processMessages
        [Except.ok { subject := some "a",
                     parts := [{ mimetype := "application/zip",
                                 extractXml := .ok "<bad/>",
                                 parseReport := .error "schema" }] },
         Except.ok { subject := some "b", parts := [] }]).isOk = true ∧
    Loader.processMail
        (Except.ok { subject := some "a",
                     parts := [{ mimetype := "application/zip",
                                 extractXml := .ok "<bad/>",
                                 parseReport := .error "schema" }] }) =
      Except.ok [Loader.Event.processing "a", Loader.Event.xmlPrinted "<bad/>",
                 Loader.Event.reportPrinted (Except.error "schema")] :=
  ⟨c1_only_schema_failures_skipped.1
      [Except.ok { subject := some "a",
                   parts := [{ mimetype := "application/zip",
                               extractXml := .ok "<bad/>",
                               parseReport := .error "schema" }] },
       Except.ok { subject := some "b", parts := [] }] (by rfl),
   c1_only_schema_failures_skipped.2 "a" "<bad/>" "schema"⟩

/-- C4 counterexample: the claim says `application/gzip` parts are
recognized and decoded, but a message whose only part is a GZIP attachment
produces no extraction or parse events at all — the part is skipped, only
the subject line is printed. -/
theorem c4_gzip_not_recognized_counterexample :
    Loader.processMessages
        [Except.ok { subject := some "subj",
                     parts := [{ mimetype := "application/gzip",
                                 extractXml := .ok "<feedback/>",
                                 parseReport := .ok () }] }] =
      Except.ok [Loader.Event.processing "subj"] := by
  rfl

/-- C4 (amended): only `application/zip` is recognized; a part with any
other declared content type — `application/gzip` included — is skipped
without being decoded. -/
theorem c4_only_zip_recognized (p : Loader.MailPart)
    (h : p.mimetype ≠ "application/zip") :
    Loader.processPart p = .ok [] := by
  unfold Loader.processPart
  rw [if_neg h]

/-- Witness for `c4_only_zip_recognized` at a GZIP part. -/
theorem c4_only_zip_recognized_witness :
    Loader.processPart { mimetype := "application/gzip",
                         extractXml := .ok "<feedback/>",
                         parseReport := .ok () } = .ok [] :=
  c4_only_zip_recognized
    { mimetype := "application/gzip", extractXml := .ok "<feedback/>",
      parseReport := .ok () } (by decide)

/-- C5 counterexample: the claim says only line-initial `"From "` markers
split, but `content.split("From ")` also cuts at the mid-line occurrence in
`"From a\nxFrom b"`, producing two messages where the line-start reading of
the spec produces one. -/
theorem c5_mid_line_marker_counterexample :
    Mbox.mboxMessages "From a\nxFrom b" = ["a\nx", "b"] ∧
    Mbox.mboxMessagesLineStart "From a\nxFrom b" = ["a\nxFrom b"] ∧
    Mbox.mboxMessages "From a\nxFrom b" ≠
      Mbox.mboxMessagesLineStart "From a\nxFrom b" :=
  ⟨by rfl, by rfl, by decide⟩

/-- C5 (amended): the splitter cuts at every occurrence of `"From "`,
line-initial or not: the number of processed messages equals the number of
occurrences of the marker anywhere in the text.  In particular the preamble
before the first marker is discarded, and an mbox with zero markers yields
zero messages and no error. -/
theorem c5_split_every_occurrence (content : String) :
    (Mbox.mboxMessages content).length = Mbox.countFrom content.data := by
  unfold Mbox.mboxMessages
  rw [List.length_map, List.length_drop, Mbox.splitFrom_length]
  omega

/-- C6: the aggregator (modelled from spec §4.5; no aggregator exists under
`src/`) sorts ascending by the begin timestamp (a permutation of the input,
pairwise ordered under `beginLE`), removes only adjacent duplicate
`report_id`s (the result is a sublist of the sorted list with no two
adjacent equal ids, keeping the first element of each run — the head is
preserved), and flattens the retained feedbacks' record lists in order. -/
theorem c6_sort_dedup_flatten (fbs : List Dmarc.Feedback) :
    (Aggregate.sortFeedbacks fbs).Perm fbs ∧
    List.Pairwise (fun a b => Aggregate.beginLE a b = true)
      (Aggregate.sortFeedbacks fbs) ∧
    (Aggregate.dedupByReportId (Aggregate.sortFeedbacks fbs)).Sublist
      (Aggregate.sortFeedbacks fbs) ∧
    (Aggregate.dedupByReportId (Aggregate.sortFeedbacks fbs)).head? =
      (Aggregate.sortFeedbacks fbs).head? ∧
    List.Chain' (fun a b => a.report_metadata.report_id ≠ b.report_metadata.report_id)
      (Aggregate.dedupByReportId (Aggregate.sortFeedbacks fbs)) ∧
    Aggregate.aggregate fbs =
      ((Aggregate.dedupByReportId (Aggregate.sortFeedbacks fbs)).map
        Dmarc.Feedback.records).flatten :=
  ⟨List.mergeSort_perm fbs Aggregate.beginLE,
   List.sorted_mergeSort Aggregate.beginLE_trans Aggregate.beginLE_total fbs,
   Aggregate.dedupByReportId_sublist _,
   Aggregate.dedupByReportId_head? _,
   Aggregate.dedupByReportId_chain _,
   rfl⟩

end Dagger
